import Mathlib

/-!
Verification of the local content-addressed storage engine of the
p2p-storage-browser repository, against its natural-language specification.

The TypeScript services are shallowly embedded as pure Lean functions:
  * `Hex` / `calculateHash`  — the byte-wise hex content identifier shared by
    every service (`calculateHash` in ultimateStorageService.ts and its
    near-duplicates);
  * namespace `Ult`          — ultimateStorageService.ts (three storage tiers:
    in-memory `fileData`, IndexedDB, localStorage);
  * namespace `Imp`          — improvedStorageService.ts (`validateStoredFiles`);
  * namespace `PartThree`    — the unnamed storage service variant with the
    optional AES encryption envelope (src/unnamed/part_003);
  * namespace `Net`          — the P2PNetworkService of src/electron/main.js
    (peer heartbeat).

JavaScript `Map`s are modelled as association lists with `Map.set` replace-or-
append semantics; JS numbers holding byte counts are `Nat`, and the quota
fields (which JS computes with floating-point division) are modelled as `ℚ`,
where the division by 2^30 is exact.  Environment inputs (uuidv4(),
Date.now(), the local peer id, the external SHA-256 digest of crypto-js) are
passed explicitly in an `Env` record.
-/

namespace Hex

/-- One hex digit, lowercase, exactly as JS `Number.prototype.toString(16)`
produces digits: 0-9 then a-f. -/
def hexChar (d : Nat) : Char :=
  if d < 10 then Char.ofNat (48 + d) else Char.ofNat (87 + d)

/-- Digit accumulation with structural fuel (`fuel ≥ n` suffices, since the
value shrinks by a factor of 16 every step). -/
def toHexDigitsCore (fuel n : Nat) : List Char :=
  match fuel with
  | 0 => [hexChar (n % 16)]
  | fuel + 1 =>
    if n < 16 then [hexChar n]
    else toHexDigitsCore fuel (n / 16) ++ [hexChar (n % 16)]

/-- All hex digits of `n`, most significant first — the JS
`n.toString(16)` (always at least one digit). -/
def toHexDigits (n : Nat) : List Char :=
  toHexDigitsCore n n

/-- JS `s.padStart(2, '0')`: prepend zeros until the length is at least 2. -/
def padStart2 (s : List Char) : List Char :=
  if s.length ≥ 2 then s else List.replicate (2 - s.length) '0' ++ s

/-- `calculateHash` of ultimateStorageService.ts (identical in
improvedStorageService.ts, p2pPersistentService.ts and the unnamed parts):
the loop `hash += bytes[i].toString(16).padStart(2, '0')` over the buffer. -/
def calculateHash (buffer : List Nat) : List Char :=
  buffer.foldl (fun h b => h ++ padStart2 (toHexDigits b)) []

/-- Value of a hex character, inverse of `hexChar` on digits `< 16`. -/
def hexVal (c : Char) : Option Nat :=
  if 48 ≤ c.toNat ∧ c.toNat ≤ 57 then some (c.toNat - 48)
  else if 97 ≤ c.toNat ∧ c.toNat ≤ 102 then some (c.toNat - 87)
  else none

/-- Decoder witnessing that the content identifier reveals the full
content: reads the hex string back two characters at a time. -/
def hexDecode : List Char → Option (List Nat)
  | [] => some []
  | c1 :: c2 :: rest =>
    match hexVal c1, hexVal c2, hexDecode rest with
    | some d1, some d2, some bs => some ((16 * d1 + d2) :: bs)
    | _, _, _ => none
  | [_] => none

end Hex

/-! ## JavaScript `Map` model: association lists with replace-or-append `set`. -/

namespace JsMap

variable {κ : Type} {α : Type} [DecidableEq κ]


def mget : List (κ × α) → κ → Option α
  | [], _ => none
  | (k', v) :: t, k => if k' = k then some v else mget t k

/-- `Map.prototype.set`: replace the value in place if the key exists,
append otherwise. -/
def mset : List (κ × α) → κ → α → List (κ × α)
  | [], k, v => [(k, v)]
  | (k', v') :: t, k, v => if k' = k then (k, v) :: t else (k', v') :: mset t k v

/-- `Map.prototype.delete` (on a map whose keys are unique this removes
the one entry for the key). -/
def mdel (m : List (κ × α)) (k : κ) : List (κ × α) :=
  m.filter (fun e => e.1 ≠ k)

/-- `Map.prototype.has`. -/
def mhas (m : List (κ × α)) (k : κ) : Bool :=
  (mget m k).isSome

/-- `Map.prototype.values` (as a list, in entry order). -/
def mvalues (m : List (κ × α)) : List α :=
  m.map Prod.snd

end JsMap

open JsMap Hex

/-! ## ultimateStorageService.ts -/

namespace Ult

/-- `FileMetadata` of ultimateStorageService.ts. -/
structure FileMetadata where
  id : String
  name : String
  size : Nat
  hash : List Char
  uploadedAt : Nat
  indexed : Bool
  peerId : String
  mimeType : String
  checksum : List Char
  replicatedOn : List String
  lastModified : Nat
  isValid : Bool
  retryCount : Nat
  deriving DecidableEq, Repr

/-- `StorageQuota`.  The JS fields are floating-point numbers; byte sums are
integers and the division by 2^30 is modelled exactly in `ℚ`. -/
structure StorageQuota where
  totalGB : ℚ
  usedGB : ℚ
  availableGB : ℚ
  costPerMonth : ℚ
  deriving DecidableEq, Repr

/-- Initial quota of the service (`totalGB: 1, usedGB: 0, availableGB: 1,
costPerMonth: 1`). -/
def initialQuota : StorageQuota :=
  { totalGB := 1, usedGB := 0, availableGB := 1, costPerMonth := 1 }

/-- A browser `File`: name, MIME type and its bytes (`file.size` is the
byte length of the content, `file.arrayBuffer()` the content itself). -/
structure JSFile where
  name : String
  mimeType : String
  content : List Nat
  deriving DecidableEq, Repr

/-- The IndexedDB database of the service, with its `files`, `metadata` and
`backup` object stores (all keyed by `hash`).  `readFails` models the
environment condition in which read requests fire `onerror` — the service
maps any such error to a `null` result (`request.onerror = () => resolve(null)`). -/
structure IDB where
  files : List (List Char × List Nat)
  metaStore : List (List Char × FileMetadata)
  backup : List (List Char × List Nat)
  readFails : Bool
  deriving DecidableEq, Repr

/-- Whole-service state: the in-memory index and blob cache, the optional
IndexedDB handle (`this.db` may be null), the localStorage keys
(`p2p-files-metadata-v2` and `p2p-files-data-v2`, decoded), and the quota.
`lsReadFails` models a localStorage read whose JSON parse throws — the
service catches it and returns `null`. -/
structure State where
  fileIndex : List (List Char × FileMetadata)
  fileData : List (List Char × List Nat)
  db : Option IDB
  lsMeta : List FileMetadata
  lsFiles : List (List Char × List Nat)
  lsReadFails : Bool
  quota : StorageQuota
  deriving DecidableEq, Repr

/-- Environment inputs consumed during one call: `uuidv4()`, `Date.now()`,
the local peer id from localStorage, and the external crypto-js SHA-256
digest (opaque to this spec, passed as a function). -/
structure Env where
  uuid : String
  now : Nat
  localPeerId : String
  sha256 : List Char → List Char

/-- `updateStorageQuota`: recompute `usedGB` as the byte sum over the index
divided by 2^30 and clamp `availableGB` at 0; `costPerMonth` is untouched. -/
def updateStorageQuota (st : State) : State :=
  let usedBytes : ℚ := (mvalues st.fileIndex).foldl (fun acc m => acc + (m.size : ℚ)) 0
  let usedGB := usedBytes / (1024 * 1024 * 1024)
  { st with quota := { st.quota with
      usedGB := usedGB
      availableGB := max 0 (st.quota.totalGB - usedGB) } }

/-- `setStorageQuota(totalGB)`. -/
def setStorageQuota (st : State) (totalGB : ℚ) : State :=
  updateStorageQuota
    { st with quota := { st.quota with totalGB := totalGB, costPerMonth := totalGB * 1 } }

/-- `saveToLocalStorage`: store all metadata, plus the data of every file
below the 10 MiB ceiling; the data key is only written when at least one
file qualifies. -/
def saveToLocalStorage (st : State) : State :=
  let filesData := st.fileData.filter (fun e => e.2.length < 10 * 1024 * 1024)
  { st with
    lsMeta := mvalues st.fileIndex
    lsFiles := if filesData.length > 0 then filesData else st.lsFiles }

/-- `saveToIndexedDB`: `put` the blob in `files`, the metadata in
`metadata` and both in `backup`. -/
def saveToIndexedDB (db : IDB) (hash : List Char) (buffer : List Nat)
    (metadata : FileMetadata) : IDB :=
  { db with
    files := mset db.files hash buffer
    metaStore := mset db.metaStore hash metadata
    backup := mset db.backup hash buffer }

/-- `getFromIndexedDB`: `files` store first, `backup` store second; any
request error resolves `null`. -/
def getFromIndexedDB (db : IDB) (hash : List Char) : Option (List Nat) :=
  if db.readFails then none
  else match mget db.files hash with
    | some d => some d
    | none => mget db.backup hash

/-- `getFromLocalStorage`: look the hash up in the decoded
`p2p-files-data-v2` record; any error is caught and yields `null`. -/
def getFromLocalStorage (st : State) (hash : List Char) : Option (List Nat) :=
  if st.lsReadFails then none else mget st.lsFiles hash

/-- `deleteFromIndexedDB` / `deleteFromLocalStorage`. -/
def deleteEverywhere (st : State) (hash : List Char) : State :=
  { st with
    db := st.db.map (fun db => { db with
      files := mdel db.files hash
      metaStore := mdel db.metaStore hash
      backup := mdel db.backup hash })
    lsFiles := mdel st.lsFiles hash
    lsMeta := st.lsMeta.filter (fun m => m.hash ≠ hash) }

/-- `addFile(file, indexed, peerId)`.  The call mutates `this` and either
returns the new metadata or throws; the thrown message is returned in the
`Except.error` alongside the state as it stood at the throw.  `uuidv4()` and
`Date.now()` come from `env`. -/
def addFile (env : Env) (st : State) (file : Option JSFile) (indexed : Bool)
    (peerId : String) : State × Except String FileMetadata :=
  match file with
  | none => (st, .error "Invalid file: file is empty")
  | some f =>
    if f.content.length = 0 then (st, .error "Invalid file: file is empty")
    else
      let fileHash := calculateHash f.content
      if fileHash.length = 0 then (st, .error "Failed to calculate file hash")
      else
        let checksum := env.sha256 fileHash
        let localPid := if peerId = "" then env.localPeerId else peerId
        let metadata : FileMetadata :=
          { id := env.uuid, name := f.name, size := f.content.length
            hash := fileHash, uploadedAt := env.now, lastModified := env.now
            indexed := indexed, peerId := localPid, mimeType := f.mimeType
            checksum := checksum, replicatedOn := [localPid]
            isValid := true, retryCount := 0 }
        let st1 := { st with
          fileIndex := mset st.fileIndex fileHash metadata
          fileData := mset st.fileData fileHash f.content }
        let st2 := saveToLocalStorage st1
        let st3 := match st2.db with
          | some db => { st2 with db := some (saveToIndexedDB db fileHash f.content metadata) }
          | none => st2
        (updateStorageQuota st3, .ok metadata)

/-- `getFile(fileHash)`: index lookup, then memory → IndexedDB →
localStorage, backfilling the in-memory cache on a lower-tier hit;
`null` when the index has no record, throw when the record exists but no
tier holds the bytes. -/
def getFile (st : State) (fileHash : List Char) :
    State × Except String (Option JSFile) :=
  match mget st.fileIndex fileHash with
  | none => (st, .ok none)
  | some metadata =>
    match mget st.fileData fileHash with
    | some buf =>
      (st, .ok (some { name := metadata.name, mimeType := metadata.mimeType, content := buf }))
    | none =>
      let fromIdb := match st.db with
        | some db => getFromIndexedDB db fileHash
        | none => none
      match fromIdb with
      | some buf =>
        ({ st with fileData := mset st.fileData fileHash buf },
         .ok (some { name := metadata.name, mimeType := metadata.mimeType, content := buf }))
      | none =>
        match getFromLocalStorage st fileHash with
        | some buf =>
          ({ st with fileData := mset st.fileData fileHash buf },
           .ok (some { name := metadata.name, mimeType := metadata.mimeType, content := buf }))
        | none => (st, .error ("File data not found: " ++ metadata.name))

/-- `deleteFile(fileHash)`. -/
def deleteFile (st : State) (fileHash : List Char) :
    State × Except String Bool :=
  match mget st.fileIndex fileHash with
  | none => (st, .error "File not found")
  | some _ =>
    let st1 := { st with
      fileIndex := mdel st.fileIndex fileHash
      fileData := mdel st.fileData fileHash }
    let st2 := deleteEverywhere st1 fileHash
    (updateStorageQuota st2, .ok true)

/-- One iteration of the `validateAllFiles` recovery loop: given the
in-flight `fileData` cache and the invalid-hash accumulator, process one
index entry (the IndexedDB handle and localStorage are fixed for the whole
sweep, as in the source). -/
def validateStep (st : State)
    (acc : List (List Char × List Nat) × List (List Char))
    (entry : List Char × FileMetadata) :
    List (List Char × List Nat) × List (List Char) :=
  let (fd, invalid) := acc
  let hash := entry.1
  if mhas fd hash then acc
  else
    let fromIdb := match st.db with
      | some db => getFromIndexedDB db hash
      | none => none
    match fromIdb with
    | some buf => (mset fd hash buf, invalid)
    | none =>
      match getFromLocalStorage st hash with
      | some buf => (mset fd hash buf, invalid)
      | none => (fd, invalid ++ [hash])

/-- `validateAllFiles`: sweep the index, recover blobs missing from memory
out of IndexedDB or localStorage, collect the hashes recoverable from no
tier, and finally drop those from the index.  The quota is NOT recomputed
by this sweep (the source has no `updateStorageQuota` call here). -/
def validateAllFiles (st : State) : State :=
  let res := st.fileIndex.foldl (validateStep st) (st.fileData, [])
  { st with
    fileData := res.1
    fileIndex := res.2.foldl (fun idx h => mdel idx h) st.fileIndex }

end Ult

/-! ## improvedStorageService.ts (validation sweep with retry budget) -/

namespace Imp

/-- Reuses the same `FileMetadata` shape as ultimateStorageService.ts. -/
structure State where
  fileIndex : List (List Char × Ult.FileMetadata)
  quota : Ult.StorageQuota
  deriving DecidableEq, Repr

/-- `maxRetries` of improvedStorageService.ts. -/
def maxRetries : Nat := 3

/-- `updateStorageQuota` (same computation as in ultimateStorageService). -/
def updateStorageQuota (st : State) : State :=
  let usedBytes : ℚ := (JsMap.mvalues st.fileIndex).foldl (fun acc m => acc + (m.size : ℚ)) 0
  let usedGB := usedBytes / (1024 * 1024 * 1024)
  { st with quota := { st.quota with
      usedGB := usedGB
      availableGB := max 0 (st.quota.totalGB - usedGB) } }

/-- `validateStoredFiles`: collect every entry with `!isValid` or
`retryCount >= maxRetries`, remove exactly those from the index, then
recompute the quota.  No `retryCount` is ever incremented. -/
def validateStoredFiles (st : State) : State :=
  let keep := st.fileIndex.filter
    (fun e => e.2.isValid && decide (e.2.retryCount < maxRetries))
  updateStorageQuota { st with fileIndex := keep }

end Imp

/-! ## src/unnamed/part_003: the storage service with the encryption envelope.

crypto-js is external; it is modelled at the boundary the source touches:

  * `CryptoJS.AES.encrypt(wordArray, passphrase).toString()` PKCS#7-pads the
    plaintext to the 16-byte AES block and applies a passphrase-keyed cipher;
    the resulting ciphertext text and its `TextEncoder` bytes are collapsed
    into one byte list (the encoding between them is bijective and the code
    round-trips it verbatim).
  * `CryptoJS.AES.decrypt(str, passphrase)` is a TOTAL function: with a wrong
    passphrase it derives a wrong key and returns garbage words — it does not
    throw (crypto-js `Pkcs7.unpad` only subtracts the last byte from
    `sigBytes`, without validating).  Its result is a word array carrying all
    decrypted bytes plus the unpadded `sigBytes` count.

The keyed cipher core is a parameter (`CipherModel`); a concrete instance
(`xorCipher`) is supplied for evaluation. -/

namespace PartThree

/-- Result shape of `CryptoJS.AES.decrypt`: `words` (here as the full byte
list, a multiple of the block size) and the `sigBytes` left after
`Pkcs7.unpad` subtracted the final pad byte. -/
structure WordsArr where
  bytes : List Nat
  sigBytes : Nat
  deriving DecidableEq, Repr

/-- PKCS#7 padding to the 16-byte AES block (crypto-js default). -/
def pkcs7pad (bs : List Nat) : List Nat :=
  let padLen := 16 - bs.length % 16
  bs ++ List.replicate padLen padLen

/-- A passphrase-keyed symmetric cipher core on padded byte blocks.  `enc`
and `dec` are total: this is the crypto-js contract (decryption with any
passphrase yields bytes, never an exception). -/
structure CipherModel where
  enc : String → List Nat → List Nat
  dec : String → List Nat → List Nat

/-- `CryptoJS.AES.encrypt(.., key).toString()` then `TextEncoder`:
pad, then apply the keyed core. -/
def cryptoJSEncrypt (cm : CipherModel) (key : String) (bs : List Nat) : List Nat :=
  cm.enc key (pkcs7pad bs)

/-- `CryptoJS.AES.decrypt(str, key)`: apply the keyed core, then
`Pkcs7.unpad` (subtract the last byte from `sigBytes`; the words are left
in place). -/
def cryptoJSDecrypt (cm : CipherModel) (key : String) (ct : List Nat) : WordsArr :=
  let pt := cm.dec key ct
  { bytes := pt, sigBytes := pt.length - (pt.getLastD 0 % 256) }

/-- The word-array-to-bytes conversion of part_003 `getFile` (lines
148–155): it reads ALL words — `wordArray.length * 4` bytes — and never
truncates to `sigBytes`, so the PKCS#7 padding stays in the output. -/
def wordsToBytes (w : WordsArr) : List Nat :=
  w.bytes

/-- One byte derived from a passphrase (sum of its character codes mod
256), for the concrete cipher instance. -/
def keyByte (key : String) : Nat :=
  key.data.foldl (fun acc c => (acc + c.toNat) % 256) 0

/-- Concrete cipher core used to evaluate the model: XOR every byte with a
passphrase-derived byte (an involution, so `dec k (enc k bs) = bs`, and a
wrong passphrase yields scrambled bytes — exactly the crypto-js failure
shape). -/
def xorCipher : CipherModel :=
  { enc := fun k bs => bs.map (fun b => b ^^^ keyByte k)
    dec := fun k bs => bs.map (fun b => b ^^^ keyByte k) }

/-- `FileMetadata` of part_003 (no replication/validity bookkeeping, plus
the encryption envelope fields). -/
structure PMeta where
  id : String
  name : String
  size : Nat
  hash : List Char
  uploadedAt : Nat
  indexed : Bool
  peerId : String
  mimeType : String
  checksum : List Char
  isEncrypted : Bool
  encryptionKeyId : Option (List Char)
  deriving DecidableEq, Repr

/-- An entry of the IndexedDB `files` store (`{ id, data, metadata }`). -/
structure PEntry where
  id : String
  data : List Nat
  metadata : PMeta
  deriving DecidableEq, Repr

/-- part_003's IndexedDB: `files` (keyed by record id) and `metadata`;
`getFile` scans `files` by `metadata.hash`. -/
structure PDB where
  files : List PEntry
  metaStore : List (List Char × PMeta)
  deriving DecidableEq, Repr

structure State where
  db : Option PDB
  fileIndex : List (List Char × PMeta)
  quota : Ult.StorageQuota
  deriving DecidableEq, Repr

/-- part_003 `updateStorageQuota`: same byte sum, but `availableGB` is NOT
clamped — `totalGB - usedGB` may go negative. -/
def updateStorageQuota (st : State) : State :=
  let usedBytes : ℚ := (JsMap.mvalues st.fileIndex).foldl (fun acc m => acc + (m.size : ℚ)) 0
  let usedGB := usedBytes / (1024 * 1024 * 1024)
  { st with quota := { st.quota with
      usedGB := usedGB
      availableGB := st.quota.totalGB - usedGB } }

/-- part_003 `addFile(file, indexed, peerId, encryptionKey?)`: no empty-file
validation at all; when a key is supplied the buffer is encrypted before
hashing; the hash is computed over the stored (possibly ciphered) buffer;
the record always enters the index. -/
def addFile (cm : CipherModel) (env : Ult.Env) (st : State) (file : Ult.JSFile)
    (indexed : Bool) (peerId : String) (encryptionKey : Option String) :
    State × Except String PMeta :=
  let plain := file.content
  let enc : Bool × Option (List Char) × List Nat :=
    match encryptionKey with
    | some k => (true, some (env.sha256 k.data), cryptoJSEncrypt cm k plain)
    | none => (false, none, plain)
  let buf := enc.2.2
  let fileHash := Hex.calculateHash buf
  let metadata : PMeta :=
    { id := env.uuid, name := file.name, size := plain.length
      hash := fileHash, uploadedAt := env.now, indexed := indexed
      peerId := peerId, mimeType := file.mimeType
      checksum := env.sha256 fileHash, isEncrypted := enc.1
      encryptionKeyId := enc.2.1 }
  let st1 := { st with
    db := st.db.map (fun db => { db with
      files := db.files ++ [{ id := env.uuid, data := buf, metadata := metadata }]
      metaStore := db.metaStore ++ [(fileHash, metadata)] })
    fileIndex := JsMap.mset st.fileIndex fileHash metadata }
  (updateStorageQuota st1, .ok metadata)

/-- part_003 `getFile(fileHash, encryptionKey?)`: `null` when there is no
database or no entry with that hash; when the entry is encrypted and a key
was supplied, decrypt with the total crypto-js decrypt and convert ALL
words to bytes (the `try`/`reject('Decryption failed')` branch guards an
exception that crypto-js does not raise for a wrong passphrase, so it is
unreachable in this model). -/
def getFile (cm : CipherModel) (st : State) (fileHash : List Char)
    (encryptionKey : Option String) : Except String (Option Ult.JSFile) :=
  match st.db with
  | none => .ok none
  | some db =>
    match db.files.find? (fun f => f.metadata.hash = fileHash) with
    | none => .ok none
    | some fileData =>
      match fileData.metadata.isEncrypted, encryptionKey with
      | true, some k =>
        let decrypted := cryptoJSDecrypt cm k fileData.data
        .ok (some { name := fileData.metadata.name
                    mimeType := fileData.metadata.mimeType
                    content := wordsToBytes decrypted })
      | _, _ =>
        .ok (some { name := fileData.metadata.name
                    mimeType := fileData.metadata.mimeType
                    content := fileData.data })

end PartThree

/-! ## src/electron/main.js — P2PNetworkService heartbeat -/

namespace Net

/-- `PeerNode` of main.js. -/
structure PeerNode where
  peerId : String
  address : String
  port : Nat
  lastSeen : Nat
  filesCount : Nat
  storageUsed : Nat
  isOnline : Bool
  deriving DecidableEq, Repr

/-- The `setInterval` period of `startHeartbeat` (milliseconds). -/
def heartbeatIntervalMs : Nat := 10000

/-- The offline threshold of the heartbeat check (milliseconds). -/
def offlineThresholdMs : Nat := 30000

/-- Body of the heartbeat loop for one peer: mark offline when
`now - lastSeen > 30000` (the inner `if (peer.isOnline)` only gates the
event emission; the resulting record is the same). -/
def heartbeatOne (now : Nat) (p : PeerNode) : PeerNode :=
  if offlineThresholdMs < now - p.lastSeen then
    if p.isOnline then { p with isOnline := false } else p
  else p

/-- One tick of the interval started by `startHeartbeat`, over the whole
peer map.  Entries are only updated in place — nothing is ever removed. -/
def heartbeatCheck (now : Nat) (peers : List (String × PeerNode)) :
    List (String × PeerNode) :=
  peers.map (fun e => (e.1, heartbeatOne now e.2))

/-- `markPeerOnline(peerId)`: if the peer is known, set it online and
refresh `lastSeen`; unknown peers are ignored. -/
def markPeerOnline (now : Nat) (peers : List (String × PeerNode))
    (peerId : String) : List (String × PeerNode) :=
  match JsMap.mget peers peerId with
  | none => peers
  | some p => JsMap.mset peers peerId { p with isOnline := true, lastSeen := now }

end Net

/-! ## Lemmas about the hasher -/

namespace Hex

theorem hexVal_hexChar : ∀ d < 16, hexVal (hexChar d) = some d := by decide

theorem toHexDigitsCore_small (fuel n : Nat) (h : n < 16) :
    toHexDigitsCore fuel n = [hexChar n] := by
  cases fuel with
  | zero => simp [toHexDigitsCore, Nat.mod_eq_of_lt h]
  | succ fuel => simp [toHexDigitsCore, h]

theorem toHexDigits_lt16 (b : Nat) (h : b < 16) : toHexDigits b = [hexChar b] :=
  toHexDigitsCore_small b b h

theorem toHexDigits_of_byte (b : Nat) (h16 : 16 ≤ b) (h : b < 256) :
    toHexDigits b = [hexChar (b / 16), hexChar (b % 16)] := by
  obtain ⟨m, rfl⟩ : ∃ m, b = m + 1 := ⟨b - 1, by omega⟩
  have hnot : ¬ m + 1 < 16 := by omega
  show toHexDigitsCore (m + 1) (m + 1) = _
  rw [toHexDigitsCore, if_neg hnot,
    toHexDigitsCore_small m ((m + 1) / 16) (by omega)]
  rfl

/-- For an actual byte (`Uint8Array` element), the chunk appended to the
hash is exactly the two hex characters of the byte. -/
theorem byteChunk_eq (b : Nat) (h : b < 256) :
    padStart2 (toHexDigits b) = [hexChar (b / 16), hexChar (b % 16)] := by
  by_cases h16 : b < 16
  · rw [toHexDigits_lt16 b h16]
    have hb : b / 16 = 0 := Nat.div_eq_of_lt h16
    have hm : b % 16 = b := Nat.mod_eq_of_lt h16
    simp [padStart2, hb, hm, hexChar, List.replicate]
  · rw [toHexDigits_of_byte b (by omega) h]
    simp [padStart2]

theorem calculateHash_generalized (buffer : List Nat) (init : List Char) :
    buffer.foldl (fun h b => h ++ padStart2 (toHexDigits b)) init
      = init ++ (buffer.map (fun b => padStart2 (toHexDigits b))).flatten := by
  induction buffer generalizing init with
  | nil => simp
  | cons b rest ih => simp [List.foldl_cons, ih, List.append_assoc]

theorem calculateHash_eq_flatten (buffer : List Nat) :
    calculateHash buffer
      = (buffer.map (fun b => padStart2 (toHexDigits b))).flatten := by
  unfold calculateHash
  simpa using calculateHash_generalized buffer []

theorem calculateHash_cons (b : Nat) (rest : List Nat) (h : b < 256) :
    calculateHash (b :: rest)
      = hexChar (b / 16) :: hexChar (b % 16) :: calculateHash rest := by
  rw [calculateHash_eq_flatten, calculateHash_eq_flatten, List.map_cons,
    List.flatten_cons, byteChunk_eq b h]
  rfl

theorem calculateHash_length (buffer : List Nat) (h : ∀ b ∈ buffer, b < 256) :
    (calculateHash buffer).length = 2 * buffer.length := by
  induction buffer with
  | nil => rfl
  | cons b rest ih =>
    rw [calculateHash_cons b rest (h b (by simp))]
    simp only [List.length_cons]
    rw [ih (fun x hx => h x (by simp [hx]))]
    ring

theorem hexDecode_calculateHash (buffer : List Nat) (h : ∀ b ∈ buffer, b < 256) :
    hexDecode (calculateHash buffer) = some buffer := by
  induction buffer with
  | nil => rfl
  | cons b rest ih =>
    have hb : b < 256 := h b (by simp)
    rw [calculateHash_cons b rest hb]
    have h1 : hexVal (hexChar (b / 16)) = some (b / 16) :=
      hexVal_hexChar (b / 16) (by omega)
    have h2 : hexVal (hexChar (b % 16)) = some (b % 16) :=
      hexVal_hexChar (b % 16) (by omega)
    have h3 : hexDecode (calculateHash rest) = some rest :=
      ih (fun x hx => h x (by simp [hx]))
    simp [hexDecode, h1, h2, h3, Nat.div_add_mod]

theorem calculateHash_injective (b1 b2 : List Nat)
    (h1 : ∀ b ∈ b1, b < 256) (h2 : ∀ b ∈ b2, b < 256)
    (heq : calculateHash b1 = calculateHash b2) : b1 = b2 := by
  have e1 := hexDecode_calculateHash b1 h1
  have e2 := hexDecode_calculateHash b2 h2
  rw [heq, e2] at e1
  exact (Option.some_inj.mp e1).symm

end Hex

/-- Claim C9: the content identifier computed by `calculateHash` is the
byte-wise hexadecimal encoding of the content: its length is twice the byte
length, two buffers of bytes collide exactly when they are equal, and the
full content is recoverable from the identifier alone (`hexDecode` inverts
it) — the identifier is not a fixed-size digest and reveals the content it
names. -/
theorem calculateHash_hex_encoding (b1 : List Nat) (h1 : ∀ b ∈ b1, b < 256) :
    (Hex.calculateHash b1).length = 2 * b1.length ∧
    (∀ b2 : List Nat, (∀ b ∈ b2, b < 256) →
      (Hex.calculateHash b1 = Hex.calculateHash b2 ↔ b1 = b2)) ∧
    Hex.hexDecode (Hex.calculateHash b1) = some b1 := by
  refine ⟨Hex.calculateHash_length b1 h1, ?_, Hex.hexDecode_calculateHash b1 h1⟩
  intro b2 h2
  constructor
  · exact Hex.calculateHash_injective b1 b2 h1 h2
  · intro h; rw [h]

/-- Witness for C9 at the concrete buffer `[0, 171, 255]`. -/
theorem calculateHash_hex_encoding_witness :
    (Hex.calculateHash [0, 171, 255]).length = 2 * 3 ∧
    (Hex.calculateHash [0, 171, 255] = Hex.calculateHash [171] ↔ ([0, 171, 255] : List Nat) = [171]) ∧
    Hex.hexDecode (Hex.calculateHash [0, 171, 255]) = some [0, 171, 255] := by
  have h := calculateHash_hex_encoding [0, 171, 255] (by decide)
  exact ⟨h.1, h.2.1 [171] (by decide), h.2.2⟩

/-! ## Lemmas about the map model -/

namespace JsMap

variable {κ : Type} {α : Type} [DecidableEq κ]

theorem mget_mset_self (m : List (κ × α)) (k : κ) (v : α) :
    mget (mset m k v) k = some v := by
  induction m with
  | nil => simp [mset, mget]
  | cons e t ih =>
    by_cases h : e.1 = k
    · simp [mset, h, mget]
    · simp [mset, h, mget, ih]

theorem mget_mset_ne (m : List (κ × α)) (k k' : κ) (v : α) (h : k ≠ k') :
    mget (mset m k v) k' = mget m k' := by
  induction m with
  | nil => simp [mset, mget, h]
  | cons e t ih =>
    rcases e with ⟨k1, v1⟩
    by_cases he : k1 = k
    · subst he
      simp only [mset, if_pos rfl, mget]
      rw [if_neg h, if_neg h]
    · simp only [mset, if_neg he, mget, ih]

theorem length_mset_of_mem (m : List (κ × α)) (k : κ) (v : α)
    (h : (mget m k).isSome) : (mset m k v).length = m.length := by
  induction m with
  | nil => simp [mget] at h
  | cons e t ih =>
    rcases e with ⟨k1, v1⟩
    by_cases he : k1 = k
    · simp [mset, he]
    · simp only [mget, he, if_false, ite_false] at h
      simp [mset, he, ih h]

/-- Replacing the value at a present key splits the map around that key. -/
theorem mset_split (m : List (κ × α)) (k : κ) (v w : α) (h : mget m k = some w) :
    ∃ pre post, m = pre ++ (k, w) :: post ∧ mset m k v = pre ++ (k, v) :: post := by
  induction m with
  | nil => simp [mget] at h
  | cons e t ih =>
    rcases e with ⟨k1, v1⟩
    by_cases he : k1 = k
    · subst he
      have hv : v1 = w := by simpa [mget] using h
      subst hv
      exact ⟨[], t, by simp, by simp [mset]⟩
    · simp only [mget, he, ite_false] at h
      obtain ⟨pre, post, h1, h2⟩ := ih h
      exact ⟨(k1, v1) :: pre, post, by simp [h1], by simp [mset, he, h2]⟩

end JsMap

/-! ## General lemmas about the embedded operations -/

theorem foldl_add_sum {α : Type} (l : List α) (f : α → ℚ) (init : ℚ) :
    l.foldl (fun acc m => acc + f m) init = init + (l.map f).sum := by
  induction l generalizing init with
  | nil => simp
  | cons a t ih => simp [ih, add_assoc]

namespace JsMap

variable {κ : Type} {α : Type} [DecidableEq κ]

theorem mget_map_kv (l : List (κ × α)) (f : α → α) (k : κ) :
    mget (l.map (fun e => (e.1, f e.2))) k = (mget l k).map f := by
  induction l with
  | nil => rfl
  | cons e t ih =>
    by_cases he : e.1 = k
    · simp [mget, he]
    · simp [mget, he, ih]

theorem mget_mdel (l : List (κ × α)) (k k' : κ) :
    mget (mdel l k') k = if k' = k then none else mget l k := by
  induction l with
  | nil => simp [mdel, mget]
  | cons e t ih =>
    rcases e with ⟨k1, v1⟩
    by_cases h1 : k1 = k'
    · subst h1
      have hdrop : mdel ((k1, v1) :: t) k1 = mdel t k1 := by simp [mdel]
      rw [hdrop, ih]
      by_cases h2 : k1 = k
      · simp [h2]
      · simp [mget, h2]
    · have hkeep : mdel ((k1, v1) :: t) k' = (k1, v1) :: mdel t k' := by
        simp [mdel, h1]
      rw [hkeep]
      by_cases h2 : k1 = k
      · subst h2
        have hk : ¬ k' = k1 := fun hh => h1 hh.symm
        simp [mget, hk]
      · simp [mget, h2, ih]

theorem mget_mem (l : List (κ × α)) (k : κ) (v : α) (h : mget l k = some v) :
    (k, v) ∈ l := by
  induction l with
  | nil => simp [mget] at h
  | cons e t ih =>
    rcases e with ⟨k1, v1⟩
    by_cases he : k1 = k
    · subst he
      simp only [mget, if_pos] at h
      rw [Option.some_inj] at h
      subst h
      exact List.mem_cons_self _ _
    · simp only [mget, he, ite_false] at h
      exact List.mem_cons_of_mem _ (ih h)

theorem mget_eq_some_of_mem_nodup (l : List (κ × α)) (k : κ) (v : α)
    (hnd : (l.map Prod.fst).Nodup) (h : (k, v) ∈ l) : mget l k = some v := by
  induction l with
  | nil => simp at h
  | cons e t ih =>
    rcases e with ⟨k1, v1⟩
    simp only [List.map_cons, List.nodup_cons] at hnd
    rcases List.mem_cons.mp h with h1 | h1
    · rw [Prod.mk.injEq] at h1
      rcases h1 with ⟨hk, hv⟩
      subst hk
      subst hv
      simp [mget]
    · have hk1 : k1 ≠ k := by
        intro hkk
        subst hkk
        exact hnd.1 (List.mem_map.mpr ⟨(k1, v), h1, rfl⟩)
      simp only [mget, hk1, ite_false]
      exact ih hnd.2 h1

end JsMap

namespace Ult

theorem updateStorageQuota_fileIndex (st : State) :
    (updateStorageQuota st).fileIndex = st.fileIndex := rfl

theorem updateStorageQuota_fileData (st : State) :
    (updateStorageQuota st).fileData = st.fileData := rfl

theorem updateStorageQuota_db (st : State) :
    (updateStorageQuota st).db = st.db := rfl

theorem updateStorageQuota_usedGB (st : State) :
    (updateStorageQuota st).quota.usedGB
      = ((mvalues st.fileIndex).map (fun m => (m.size : ℚ))).sum / 2 ^ 30 := by
  show ((mvalues st.fileIndex).foldl (fun acc m => acc + (m.size : ℚ)) 0) / (1024 * 1024 * 1024)
    = ((mvalues st.fileIndex).map (fun m => (m.size : ℚ))).sum / 2 ^ 30
  rw [foldl_add_sum]
  norm_num

theorem updateStorageQuota_availableGB (st : State) :
    (updateStorageQuota st).quota.availableGB
      = max 0 (st.quota.totalGB - (updateStorageQuota st).quota.usedGB) := rfl

theorem updateStorageQuota_totalGB (st : State) :
    (updateStorageQuota st).quota.totalGB = st.quota.totalGB := rfl

theorem updateStorageQuota_costPerMonth (st : State) :
    (updateStorageQuota st).quota.costPerMonth = st.quota.costPerMonth := rfl

theorem saveToLocalStorage_fileIndex (st : State) :
    (saveToLocalStorage st).fileIndex = st.fileIndex := rfl

theorem saveToLocalStorage_fileData (st : State) :
    (saveToLocalStorage st).fileData = st.fileData := rfl

theorem saveToLocalStorage_quota (st : State) :
    (saveToLocalStorage st).quota = st.quota := rfl

/-- Successful `addFile` shape: the returned metadata is hashed from the
content, sized by the content, replicated on exactly the effective peer id;
the resulting state is `updateStorageQuota` of a state whose index is the
old index with the record set at the content hash, and whose quota fields
other than the recomputed ones are untouched. -/
theorem addFile_ok_shape (env : Env) (st : State) (f : JSFile) (ix : Bool)
    (pid : String) (st' : State) (md : FileMetadata)
    (h : addFile env st (some f) ix pid = (st', Except.ok md)) :
    md.hash = Hex.calculateHash f.content ∧
    md.size = f.content.length ∧
    md.replicatedOn = [if pid = "" then env.localPeerId else pid] ∧
    ∃ st3 : State, st' = updateStorageQuota st3 ∧
      st3.fileIndex = mset st.fileIndex (Hex.calculateHash f.content) md ∧
      st3.quota = st.quota := by
  by_cases h0 : f.content.length = 0
  · simp [addFile, h0] at h
  · by_cases h1 : (Hex.calculateHash f.content).length = 0
    · simp [addFile, h0, h1] at h
    · simp only [addFile, h0, h1, ite_false, if_neg, not_false_iff] at h
      rw [Prod.mk.injEq] at h
      rcases h with ⟨hst, hmd⟩
      rw [Except.ok.injEq] at hmd
      subst hmd
      refine ⟨rfl, rfl, rfl, ?_⟩
      refine ⟨_, hst.symm, ?_, ?_⟩
      · split <;> rfl
      · split <;> rfl

end Ult

/-! ## Claim C5: empty-input validation -/

/-- Claim C5 (amended): in ultimateStorageService (and likewise
improvedStorageService), `addFile` rejects a null or empty file with the
validation error before any hashing and leaves the whole state — in
particular the metadata index — unchanged.  (The part_003 and
persistentStorageService variants perform no such validation; see the
counterexample.) -/
theorem addFile_rejects_empty_input (env : Ult.Env) (st : Ult.State)
    (file : Option Ult.JSFile) (ix : Bool) (pid : String)
    (h : file = none ∨ ∃ f, file = some f ∧ f.content = []) :
    Ult.addFile env st file ix pid
      = (st, Except.error "Invalid file: file is empty") := by
  rcases h with h | ⟨f, rfl, hf⟩
  · subst h; rfl
  · simp [Ult.addFile, hf]

/-- Witness for C5's amended theorem at the null input. -/
theorem addFile_rejects_empty_input_witness :
    Ult.addFile ⟨"u", 0, "L", fun s => s⟩
        ⟨[], [], none, [], [], false, ⟨1, 0, 1, 1⟩⟩ none false ""
      = (⟨[], [], none, [], [], false, ⟨1, 0, 1, 1⟩⟩,
         Except.error "Invalid file: file is empty") :=
  addFile_rejects_empty_input ⟨"u", 0, "L", fun s => s⟩
    ⟨[], [], none, [], [], false, ⟨1, 0, 1, 1⟩⟩ none false "" (Or.inl rfl)

/-- Counterexample to C5 as stated: the part_003 `addFile` accepts an
empty (zero-byte) file — the call succeeds and the record enters the
metadata index, keyed by the empty content identifier. -/
theorem partthree_addFile_accepts_empty :
    (PartThree.addFile PartThree.xorCipher ⟨"u", 0, "L", fun s => s⟩
        ⟨some ⟨[], []⟩, [], ⟨0, 0, 0, 0⟩⟩ ⟨"empty", "t", []⟩ false "A"
        none).2.toOption.isSome = true ∧
    (PartThree.addFile PartThree.xorCipher ⟨"u", 0, "L", fun s => s⟩
        ⟨some ⟨[], []⟩, [], ⟨0, 0, 0, 0⟩⟩ ⟨"empty", "t", []⟩ false "A"
        none).1.fileIndex.map Prod.fst = [([] : List Char)] :=
  ⟨rfl, rfl⟩

/-! ## Claim C3: double ingest of identical bytes -/

/-- Claim C3 (amended): ingesting identical bytes twice through
ultimateStorageService's `addFile` yields the same content identifier, adds
no second record (the index keeps its size, with the one record at that
identifier), and does not change `usedGB` (quota not duplicated) — but the
second ingest REPLACES the record wholesale: its `replicatedOn` becomes the
singleton list holding only the second ingest's peer id; peers recorded by
the first ingest are lost. -/
theorem addFile_dedup_replaces_record (env1 env2 : Ult.Env)
    (st st1 st2 : Ult.State) (f : Ult.JSFile) (ix1 ix2 : Bool)
    (p1 p2 : String) (md1 md2 : Ult.FileMetadata)
    (h1 : Ult.addFile env1 st (some f) ix1 p1 = (st1, Except.ok md1))
    (h2 : Ult.addFile env2 st1 (some f) ix2 p2 = (st2, Except.ok md2))
    (hp2 : p2 ≠ "") :
    md2.hash = md1.hash ∧
    JsMap.mget st2.fileIndex md1.hash = some md2 ∧
    st2.fileIndex.length = st1.fileIndex.length ∧
    md2.replicatedOn = [p2] ∧
    st2.quota.usedGB = st1.quota.usedGB := by
  obtain ⟨hh1, hs1, hr1, st3a, hst1, hidx1, hq1⟩ :=
    Ult.addFile_ok_shape env1 st f ix1 p1 st1 md1 h1
  obtain ⟨hh2, hs2, hr2, st3b, hst2, hidx2, hq2⟩ :=
    Ult.addFile_ok_shape env2 st1 f ix2 p2 st2 md2 h2
  have hidx1' : st1.fileIndex
      = JsMap.mset st.fileIndex (Hex.calculateHash f.content) md1 := by
    rw [hst1, Ult.updateStorageQuota_fileIndex, hidx1]
  have hidx2' : st2.fileIndex
      = JsMap.mset st1.fileIndex (Hex.calculateHash f.content) md2 := by
    rw [hst2, Ult.updateStorageQuota_fileIndex, hidx2]
  have hget1 : JsMap.mget st1.fileIndex (Hex.calculateHash f.content) = some md1 := by
    rw [hidx1']
    exact JsMap.mget_mset_self _ _ _
  refine ⟨by rw [hh1, hh2], ?_, ?_, ?_, ?_⟩
  · rw [hh1, hidx2']
    exact JsMap.mget_mset_self _ _ _
  · rw [hidx2']
    exact JsMap.length_mset_of_mem _ _ _ (by rw [hget1]; rfl)
  · rw [hr2, if_neg hp2]
  · obtain ⟨pre, post, hsplit1, hsplit2⟩ :=
      JsMap.mset_split st1.fileIndex (Hex.calculateHash f.content) md2 md1 hget1
    have e2 : st2.quota.usedGB
        = ((JsMap.mvalues (JsMap.mset st1.fileIndex (Hex.calculateHash f.content) md2)).map
            (fun m => (m.size : ℚ))).sum / 2 ^ 30 := by
      rw [hst2, Ult.updateStorageQuota_usedGB, hidx2]
    have e1 : st1.quota.usedGB
        = ((JsMap.mvalues st1.fileIndex).map (fun m => (m.size : ℚ))).sum / 2 ^ 30 := by
      rw [hst1, Ult.updateStorageQuota_usedGB, Ult.updateStorageQuota_fileIndex]
    rw [e1, e2, hsplit2, hsplit1]
    simp [JsMap.mvalues, hs1, hs2]

/-- Witness for C3's amended theorem: two concrete ingests of the byte `[1]`
by peers `"A"` then `"B"`. -/
theorem addFile_dedup_replaces_record_witness :
    ((Ult.addFile ⟨"u2", 2, "L", fun s => s⟩
        (Ult.addFile ⟨"u1", 1, "L", fun s => s⟩
          ⟨[], [], none, [], [], false, ⟨1, 0, 1, 1⟩⟩
          (some ⟨"a", "t", [1]⟩) false "A").1
        (some ⟨"a", "t", [1]⟩) false "B").2.toOption.map
          (fun m => m.replicatedOn)) = some ["B"] := by
  obtain ⟨hh, hget, hlen, hrep, hq⟩ :=
    addFile_dedup_replaces_record ⟨"u1", 1, "L", fun s => s⟩ ⟨"u2", 2, "L", fun s => s⟩
      ⟨[], [], none, [], [], false, ⟨1, 0, 1, 1⟩⟩
      (Ult.addFile ⟨"u1", 1, "L", fun s => s⟩
        ⟨[], [], none, [], [], false, ⟨1, 0, 1, 1⟩⟩
        (some ⟨"a", "t", [1]⟩) false "A").1
      (Ult.addFile ⟨"u2", 2, "L", fun s => s⟩
        (Ult.addFile ⟨"u1", 1, "L", fun s => s⟩
          ⟨[], [], none, [], [], false, ⟨1, 0, 1, 1⟩⟩
          (some ⟨"a", "t", [1]⟩) false "A").1
        (some ⟨"a", "t", [1]⟩) false "B").1
      ⟨"a", "t", [1]⟩ false false "A" "B"
      ⟨"u1", "a", 1, Hex.calculateHash [1], 1, false, "A", "t",
        Hex.calculateHash [1], ["A"], 1, true, 0⟩
      ⟨"u2", "a", 1, Hex.calculateHash [1], 2, false, "B", "t",
        Hex.calculateHash [1], ["B"], 2, true, 0⟩
      rfl rfl (by decide)
  rw [show (Ult.addFile ⟨"u2", 2, "L", fun s => s⟩
        (Ult.addFile ⟨"u1", 1, "L", fun s => s⟩
          ⟨[], [], none, [], [], false, ⟨1, 0, 1, 1⟩⟩
          (some ⟨"a", "t", [1]⟩) false "A").1
        (some ⟨"a", "t", [1]⟩) false "B").2
      = Except.ok (⟨"u2", "a", 1, Hex.calculateHash [1], 2, false, "B", "t",
          Hex.calculateHash [1], ["B"], 2, true, 0⟩ : Ult.FileMetadata) from rfl]
  rfl

/-- Counterexample to C3 as stated: after ingesting `[1]` first as peer
`"A"` and then as peer `"B"`, the single index record's `replicatedOn` is
`["B"]` — peer `"A"` is NOT retained, contradicting the claimed set
semantics. -/
theorem addFile_second_ingest_drops_first_peer :
    ((Ult.addFile ⟨"u2", 2, "L", fun s => s⟩
        (Ult.addFile ⟨"u1", 1, "L", fun s => s⟩
          ⟨[], [], none, [], [], false, ⟨1, 0, 1, 1⟩⟩
          (some ⟨"a", "t", [1]⟩) false "A").1
        (some ⟨"a", "t", [1]⟩) false "B").1.fileIndex.map
          (fun e => e.2.replicatedOn)) = [["B"]] := by
  rfl

/-! ## Claim C4: quota recomputation -/

/-- Successful `deleteFile` shape: the resulting state is
`updateStorageQuota` of a state whose quota fields are still the old ones. -/
theorem Ult.deleteFile_ok_shape (st : Ult.State) (k : List Char)
    (st' : Ult.State) (b : Bool)
    (h : Ult.deleteFile st k = (st', Except.ok b)) :
    ∃ st2 : Ult.State, st' = Ult.updateStorageQuota st2 ∧ st2.quota = st.quota := by
  cases hmk : JsMap.mget st.fileIndex k with
  | none => simp [Ult.deleteFile, hmk] at h
  | some m =>
    simp only [Ult.deleteFile, hmk] at h
    rw [Prod.mk.injEq] at h
    exact ⟨_, h.1.symm, rfl⟩

/-- Claim C4 (amended): after a successful `addFile` or `deleteFile` and
after `setStorageQuota`, ultimateStorageService's quota is recomputed from
the index — `usedGB` is the byte sum over all records divided by 2^30,
`availableGB` is clamped at 0, `totalGB` and `costPerMonth` are carried
through (with `setStorageQuota` setting `costPerMonth = totalGB × 1`).
The part_003 variant, however, does NOT clamp: its `availableGB` is the
raw difference `totalGB - usedGB`, which can go negative — and the
eviction sweep `validateAllFiles` recomputes nothing (see C6). -/
theorem quota_recomputation (env : Ult.Env) (st : Ult.State) (f : Ult.JSFile)
    (ix : Bool) (pid : String) (sta std : Ult.State) (mda : Ult.FileMetadata)
    (k : List Char) (bd : Bool) (t : ℚ) (stp : PartThree.State)
    (ha : Ult.addFile env st (some f) ix pid = (sta, Except.ok mda))
    (hd : Ult.deleteFile st k = (std, Except.ok bd)) :
    (sta.quota.usedGB
        = ((JsMap.mvalues sta.fileIndex).map (fun m => (m.size : ℚ))).sum / 2 ^ 30 ∧
     sta.quota.availableGB = max 0 (sta.quota.totalGB - sta.quota.usedGB) ∧
     sta.quota.totalGB = st.quota.totalGB ∧
     sta.quota.costPerMonth = st.quota.costPerMonth) ∧
    (std.quota.usedGB
        = ((JsMap.mvalues std.fileIndex).map (fun m => (m.size : ℚ))).sum / 2 ^ 30 ∧
     std.quota.availableGB = max 0 (std.quota.totalGB - std.quota.usedGB) ∧
     std.quota.totalGB = st.quota.totalGB ∧
     std.quota.costPerMonth = st.quota.costPerMonth) ∧
    ((Ult.setStorageQuota st t).quota.totalGB = t ∧
     (Ult.setStorageQuota st t).quota.costPerMonth = t * 1 ∧
     (Ult.setStorageQuota st t).quota.usedGB
        = ((JsMap.mvalues (Ult.setStorageQuota st t).fileIndex).map
            (fun m => (m.size : ℚ))).sum / 2 ^ 30 ∧
     (Ult.setStorageQuota st t).quota.availableGB
        = max 0 (t - (Ult.setStorageQuota st t).quota.usedGB)) ∧
    ((PartThree.updateStorageQuota stp).quota.availableGB
        = stp.quota.totalGB - (PartThree.updateStorageQuota stp).quota.usedGB) := by
  obtain ⟨-, -, -, st3, hst3, -, hq3⟩ :=
    Ult.addFile_ok_shape env st f ix pid sta mda ha
  obtain ⟨st2, hst2, hq2⟩ := Ult.deleteFile_ok_shape st k std bd hd
  refine ⟨⟨?_, ?_, ?_, ?_⟩, ⟨?_, ?_, ?_, ?_⟩, ⟨?_, ?_, ?_, ?_⟩, ?_⟩
  · rw [hst3, Ult.updateStorageQuota_usedGB, Ult.updateStorageQuota_fileIndex]
  · rw [hst3, Ult.updateStorageQuota_availableGB, Ult.updateStorageQuota_totalGB]
  · rw [hst3, Ult.updateStorageQuota_totalGB, hq3]
  · rw [hst3, Ult.updateStorageQuota_costPerMonth, hq3]
  · rw [hst2, Ult.updateStorageQuota_usedGB, Ult.updateStorageQuota_fileIndex]
  · rw [hst2, Ult.updateStorageQuota_availableGB, Ult.updateStorageQuota_totalGB]
  · rw [hst2, Ult.updateStorageQuota_totalGB, hq2]
  · rw [hst2, Ult.updateStorageQuota_costPerMonth, hq2]
  · rfl
  · rfl
  · rw [Ult.setStorageQuota, Ult.updateStorageQuota_usedGB, Ult.updateStorageQuota_fileIndex]
  · rw [Ult.setStorageQuota, Ult.updateStorageQuota_availableGB]
  · rfl

/-- Witness for C4's amended theorem at concrete inputs: a one-record state,
an ingest by peer `"P"`, a delete of the existing record, and
`setStorageQuota 5`. -/
theorem quota_recomputation_witness :
    (Ult.setStorageQuota
        ⟨[(['a'], ⟨"i", "old", 3, ['a'], 0, false, "L", "t", ['c'], ["L"], 0, true, 0⟩)],
         [(['a'], [7, 7, 7])], none, [], [], false, ⟨1, 0, 1, 1⟩⟩ 5).quota.costPerMonth
      = 5 * 1 ∧
    (Ult.addFile ⟨"u", 0, "L", fun s => s⟩
        ⟨[(['a'], ⟨"i", "old", 3, ['a'], 0, false, "L", "t", ['c'], ["L"], 0, true, 0⟩)],
         [(['a'], [7, 7, 7])], none, [], [], false, ⟨1, 0, 1, 1⟩⟩
        (some ⟨"b", "t", [2]⟩) false "P").1.quota.costPerMonth = 1 ∧
    ((PartThree.updateStorageQuota ⟨none, [], ⟨0, 0, 0, 0⟩⟩).quota.availableGB
      = (⟨none, [], ⟨0, 0, 0, 0⟩⟩ : PartThree.State).quota.totalGB
        - (PartThree.updateStorageQuota ⟨none, [], ⟨0, 0, 0, 0⟩⟩).quota.usedGB) := by
  obtain ⟨hA, hD, hS, hP⟩ :=
    quota_recomputation ⟨"u", 0, "L", fun s => s⟩
      ⟨[(['a'], ⟨"i", "old", 3, ['a'], 0, false, "L", "t", ['c'], ["L"], 0, true, 0⟩)],
       [(['a'], [7, 7, 7])], none, [], [], false, ⟨1, 0, 1, 1⟩⟩
      ⟨"b", "t", [2]⟩ false "P"
      (Ult.addFile ⟨"u", 0, "L", fun s => s⟩
        ⟨[(['a'], ⟨"i", "old", 3, ['a'], 0, false, "L", "t", ['c'], ["L"], 0, true, 0⟩)],
         [(['a'], [7, 7, 7])], none, [], [], false, ⟨1, 0, 1, 1⟩⟩
        (some ⟨"b", "t", [2]⟩) false "P").1
      (Ult.deleteFile
        ⟨[(['a'], ⟨"i", "old", 3, ['a'], 0, false, "L", "t", ['c'], ["L"], 0, true, 0⟩)],
         [(['a'], [7, 7, 7])], none, [], [], false, ⟨1, 0, 1, 1⟩⟩ ['a']).1
      ⟨"u", "b", 1, Hex.calculateHash [2], 0, false, "P", "t",
        Hex.calculateHash [2], ["P"], 0, true, 0⟩
      ['a'] true 5 ⟨none, [], ⟨0, 0, 0, 0⟩⟩ rfl rfl
  exact ⟨hS.2.1, hA.2.2.2.trans rfl, hP⟩

/-- Counterexample to C4 as stated: the part_003 `updateStorageQuota` does
not clamp `availableGB`, so after ingesting a 1-byte file into a quota with
`totalGB = 0` the available capacity is negative. -/
theorem partthree_negative_available :
    (PartThree.addFile PartThree.xorCipher ⟨"u", 0, "L", fun s => s⟩
        ⟨none, [], ⟨0, 0, 0, 0⟩⟩ ⟨"a", "t", [1]⟩ false "A"
        none).1.quota.availableGB < 0 := by
  simp [PartThree.addFile, PartThree.updateStorageQuota, JsMap.mvalues, JsMap.mset]

/-! ## Claim C7: read tier order, backfill, failure isolation -/

/-- Claim C7: for a content identifier present in the index, `getFile`
consults the volatile in-memory cache first (returning its bytes with no
state change), then IndexedDB, then localStorage, returning on the first
hit; a hit below the cache backfills the in-memory cache; and an IndexedDB
read failure (`readFails`) never fails a retrieval that localStorage can
satisfy. -/
theorem getFile_tier_order (st : Ult.State) (k : List Char)
    (md : Ult.FileMetadata) (buf bufi bufl : List Nat) (db : Ult.IDB)
    (hmd : JsMap.mget st.fileIndex k = some md) :
    (JsMap.mget st.fileData k = some buf →
      Ult.getFile st k = (st, Except.ok (some ⟨md.name, md.mimeType, buf⟩))) ∧
    (JsMap.mget st.fileData k = none → st.db = some db →
      Ult.getFromIndexedDB db k = some bufi →
      Ult.getFile st k
        = ({ st with fileData := JsMap.mset st.fileData k bufi },
           Except.ok (some ⟨md.name, md.mimeType, bufi⟩))) ∧
    (JsMap.mget st.fileData k = none → st.db = some db →
      db.readFails = true → Ult.getFromLocalStorage st k = some bufl →
      Ult.getFile st k
        = ({ st with fileData := JsMap.mset st.fileData k bufl },
           Except.ok (some ⟨md.name, md.mimeType, bufl⟩))) := by
  refine ⟨?_, ?_, ?_⟩
  · intro hbuf
    simp [Ult.getFile, hmd, hbuf]
  · intro hbuf hdb hidb
    simp [Ult.getFile, hmd, hbuf, hdb, hidb]
  · intro hbuf hdb hrf hls
    simp [Ult.getFile, hmd, hbuf, hdb, hls, Ult.getFromIndexedDB, hrf]

/-- Witness for C7 at three concrete one-record states: a memory hit, an
IndexedDB hit with backfill, and an IndexedDB read failure recovered from
localStorage. -/
theorem getFile_tier_order_witness :
    Ult.getFile
        ⟨[(['k'], ⟨"i", "n", 1, ['k'], 0, false, "L", "t", ['c'], ["L"], 0, true, 0⟩)],
         [(['k'], [9])], none, [], [], false, ⟨1, 0, 1, 1⟩⟩ ['k']
      = (⟨[(['k'], ⟨"i", "n", 1, ['k'], 0, false, "L", "t", ['c'], ["L"], 0, true, 0⟩)],
          [(['k'], [9])], none, [], [], false, ⟨1, 0, 1, 1⟩⟩,
         Except.ok (some ⟨"n", "t", [9]⟩)) ∧
    Ult.getFile
        ⟨[(['k'], ⟨"i", "n", 1, ['k'], 0, false, "L", "t", ['c'], ["L"], 0, true, 0⟩)],
         [], some ⟨[(['k'], [8])], [], [], false⟩, [], [], false, ⟨1, 0, 1, 1⟩⟩ ['k']
      = (⟨[(['k'], ⟨"i", "n", 1, ['k'], 0, false, "L", "t", ['c'], ["L"], 0, true, 0⟩)],
          [(['k'], [8])], some ⟨[(['k'], [8])], [], [], false⟩, [], [], false, ⟨1, 0, 1, 1⟩⟩,
         Except.ok (some ⟨"n", "t", [8]⟩)) ∧
    Ult.getFile
        ⟨[(['k'], ⟨"i", "n", 1, ['k'], 0, false, "L", "t", ['c'], ["L"], 0, true, 0⟩)],
         [], some ⟨[(['k'], [8])], [], [], true⟩, [], [(['k'], [7])], false, ⟨1, 0, 1, 1⟩⟩ ['k']
      = (⟨[(['k'], ⟨"i", "n", 1, ['k'], 0, false, "L", "t", ['c'], ["L"], 0, true, 0⟩)],
          [(['k'], [7])], some ⟨[(['k'], [8])], [], [], true⟩, [], [(['k'], [7])], false, ⟨1, 0, 1, 1⟩⟩,
         Except.ok (some ⟨"n", "t", [7]⟩)) := by
  refine ⟨?_, ?_, ?_⟩
  · exact (getFile_tier_order
      ⟨[(['k'], ⟨"i", "n", 1, ['k'], 0, false, "L", "t", ['c'], ["L"], 0, true, 0⟩)],
       [(['k'], [9])], none, [], [], false, ⟨1, 0, 1, 1⟩⟩ ['k']
      ⟨"i", "n", 1, ['k'], 0, false, "L", "t", ['c'], ["L"], 0, true, 0⟩
      [9] [] [] ⟨[], [], [], false⟩ rfl).1 rfl
  · exact (getFile_tier_order
      ⟨[(['k'], ⟨"i", "n", 1, ['k'], 0, false, "L", "t", ['c'], ["L"], 0, true, 0⟩)],
       [], some ⟨[(['k'], [8])], [], [], false⟩, [], [], false, ⟨1, 0, 1, 1⟩⟩ ['k']
      ⟨"i", "n", 1, ['k'], 0, false, "L", "t", ['c'], ["L"], 0, true, 0⟩
      [] [8] [] ⟨[(['k'], [8])], [], [], false⟩ rfl).2.1 rfl rfl rfl
  · exact (getFile_tier_order
      ⟨[(['k'], ⟨"i", "n", 1, ['k'], 0, false, "L", "t", ['c'], ["L"], 0, true, 0⟩)],
       [], some ⟨[(['k'], [8])], [], [], true⟩, [], [(['k'], [7])], false, ⟨1, 0, 1, 1⟩⟩ ['k']
      ⟨"i", "n", 1, ['k'], 0, false, "L", "t", ['c'], ["L"], 0, true, 0⟩
      [] [] [7] ⟨[(['k'], [8])], [], [], true⟩ rfl).2.2 rfl rfl rfl rfl

/-! ## Claim C10: the two kinds of retrieval miss -/

/-- Claim C10: a content identifier with no metadata record makes `getFile`
return `null` without an error, while an identifier whose record exists but
whose bytes are missing from every tier makes `getFile` throw — the two
kinds of miss are surfaced differently. -/
theorem getFile_miss_modes (st : Ult.State) (k : List Char)
    (md : Ult.FileMetadata) :
    (JsMap.mget st.fileIndex k = none →
      Ult.getFile st k = (st, Except.ok none)) ∧
    (JsMap.mget st.fileIndex k = some md →
     JsMap.mget st.fileData k = none →
     (∀ db : Ult.IDB, st.db = some db → Ult.getFromIndexedDB db k = none) →
     Ult.getFromLocalStorage st k = none →
     Ult.getFile st k
       = (st, Except.error ("File data not found: " ++ md.name))) := by
  constructor
  · intro hmd
    simp [Ult.getFile, hmd]
  · intro hmd hbuf hidb hls
    cases hdb : st.db with
    | none => simp [Ult.getFile, hmd, hbuf, hdb, hls]
    | some db => simp [Ult.getFile, hmd, hbuf, hdb, hidb db hdb, hls]

/-- Witness for C10: an unknown identifier returns `null`; a known
identifier with no bytes in any tier throws the data-not-found error. -/
theorem getFile_miss_modes_witness :
    Ult.getFile ⟨[], [], none, [], [], false, ⟨1, 0, 1, 1⟩⟩ ['k']
      = (⟨[], [], none, [], [], false, ⟨1, 0, 1, 1⟩⟩, Except.ok none) ∧
    Ult.getFile
        ⟨[(['k'], ⟨"i", "n", 1, ['k'], 0, false, "L", "t", ['c'], ["L"], 0, true, 0⟩)],
         [], none, [], [], false, ⟨1, 0, 1, 1⟩⟩ ['k']
      = (⟨[(['k'], ⟨"i", "n", 1, ['k'], 0, false, "L", "t", ['c'], ["L"], 0, true, 0⟩)],
          [], none, [], [], false, ⟨1, 0, 1, 1⟩⟩,
         Except.error ("File data not found: " ++ "n")) := by
  constructor
  · exact (getFile_miss_modes ⟨[], [], none, [], [], false, ⟨1, 0, 1, 1⟩⟩ ['k']
      ⟨"i", "n", 1, ['k'], 0, false, "L", "t", ['c'], ["L"], 0, true, 0⟩).1 rfl
  · exact (getFile_miss_modes
      ⟨[(['k'], ⟨"i", "n", 1, ['k'], 0, false, "L", "t", ['c'], ["L"], 0, true, 0⟩)],
       [], none, [], [], false, ⟨1, 0, 1, 1⟩⟩ ['k']
      ⟨"i", "n", 1, ['k'], 0, false, "L", "t", ['c'], ["L"], 0, true, 0⟩).2 rfl rfl
      (fun db hdb => by cases hdb) rfl

/-! ## Claim C6: validation sweeps, retry budget, eviction -/

theorem JsMap.mget_foldl_mdel_none {κ α : Type} [DecidableEq κ]
    (hs : List κ) (idx : List (κ × α)) (k : κ) (h : JsMap.mget idx k = none) :
    JsMap.mget (hs.foldl (fun i x => JsMap.mdel i x) idx) k = none := by
  induction hs generalizing idx with
  | nil => exact h
  | cons x t ih =>
    rw [List.foldl_cons]
    apply ih
    rw [JsMap.mget_mdel]
    by_cases hx : x = k
    · simp [hx]
    · simp [hx, h]

theorem JsMap.mget_foldl_mdel_of_mem {κ α : Type} [DecidableEq κ]
    (hs : List κ) (idx : List (κ × α)) (k : κ) (h : k ∈ hs) :
    JsMap.mget (hs.foldl (fun i x => JsMap.mdel i x) idx) k = none := by
  induction hs generalizing idx with
  | nil => simp at h
  | cons x t ih =>
    rw [List.foldl_cons]
    rcases List.mem_cons.mp h with h1 | h1
    · subst h1
      apply JsMap.mget_foldl_mdel_none
      rw [JsMap.mget_mdel]
      simp
    · exact ih _ h1

theorem Imp.quotaUpdateKeepsIndex (st : Imp.State) :
    (Imp.updateStorageQuota st).fileIndex = st.fileIndex := rfl

theorem Imp.quotaUpdateUsedGB (st : Imp.State) :
    (Imp.updateStorageQuota st).quota.usedGB
      = ((JsMap.mvalues st.fileIndex).map (fun m => (m.size : ℚ))).sum / 2 ^ 30 := by
  show ((JsMap.mvalues st.fileIndex).foldl (fun acc m => acc + (m.size : ℚ)) 0)
      / (1024 * 1024 * 1024)
    = ((JsMap.mvalues st.fileIndex).map (fun m => (m.size : ℚ))).sum / 2 ^ 30
  rw [foldl_add_sum]
  norm_num

/-- With no IndexedDB handle and an empty localStorage record, one
`validateAllFiles` step keeps cached entries and collects the rest. -/
theorem Ult.validateStep_no_tiers (st : Ult.State) (hdb : st.db = none)
    (hls : st.lsFiles = []) (fd : List (List Char × List Nat))
    (inv : List (List Char)) (e : List Char × Ult.FileMetadata) :
    Ult.validateStep st (fd, inv) e
      = if JsMap.mhas fd e.1 then (fd, inv) else (fd, inv ++ [e.1]) := by
  unfold Ult.validateStep
  rw [hdb]
  simp [Ult.getFromLocalStorage, hls, JsMap.mget]

theorem Ult.validate_fold_no_tiers (st : Ult.State) (hdb : st.db = none)
    (hls : st.lsFiles = [])
    (entries : List (List Char × Ult.FileMetadata))
    (fd : List (List Char × List Nat)) (inv : List (List Char)) :
    entries.foldl (Ult.validateStep st) (fd, inv)
      = (fd, inv ++ (entries.filter (fun e => !(JsMap.mhas fd e.1))).map Prod.fst) := by
  induction entries generalizing inv with
  | nil => simp
  | cons e t ih =>
    rw [List.foldl_cons, Ult.validateStep_no_tiers st hdb hls]
    by_cases hh : JsMap.mhas fd e.1
    · rw [if_pos hh, ih]
      simp [List.filter_cons, hh]
    · rw [if_neg hh, ih]
      simp [List.filter_cons, hh]

/-- Claim C6 (amended): no validation sweep ever increments `retryCount`.
improvedStorageService's `validateStoredFiles` keeps exactly the records
with `isValid` and `retryCount < maxRetries` — each kept record unchanged —
and recomputes the quota; ultimateStorageService's `validateAllFiles`
evicts a record whose blob is found in no tier already on the FIRST sweep
(regardless of `retryCount`), and leaves the quota exactly as it was (no
recomputation). -/
theorem validation_sweep_behavior (sti : Imp.State) (k : List Char)
    (m : Ult.FileMetadata) (hnd : (sti.fileIndex.map Prod.fst).Nodup)
    (stu : Ult.State) (hdb : stu.db = none) (hls : stu.lsFiles = [])
    (hnodata : JsMap.mget stu.fileData k = none) :
    (JsMap.mget (Imp.validateStoredFiles sti).fileIndex k = some m ↔
      (JsMap.mget sti.fileIndex k = some m ∧ m.isValid = true ∧
       m.retryCount < Imp.maxRetries)) ∧
    ((Imp.validateStoredFiles sti).quota.usedGB
      = ((JsMap.mvalues (Imp.validateStoredFiles sti).fileIndex).map
          (fun x => (x.size : ℚ))).sum / 2 ^ 30) ∧
    JsMap.mget (Ult.validateAllFiles stu).fileIndex k = none ∧
    (Ult.validateAllFiles stu).quota = stu.quota := by
  have hkeep : (Imp.validateStoredFiles sti).fileIndex
      = sti.fileIndex.filter
          (fun e => e.2.isValid && decide (e.2.retryCount < Imp.maxRetries)) := by
    rw [Imp.validateStoredFiles, Imp.quotaUpdateKeepsIndex]
  refine ⟨?_, ?_, ?_, ?_⟩
  · rw [hkeep]
    constructor
    · intro h
      have hmem := JsMap.mget_mem _ _ _ h
      rw [List.mem_filter] at hmem
      have hp := hmem.2
      simp only [Bool.and_eq_true, decide_eq_true_eq] at hp
      exact ⟨JsMap.mget_eq_some_of_mem_nodup _ _ _ hnd hmem.1, hp.1, hp.2⟩
    · intro ⟨hg, hv, hr⟩
      have hmem := JsMap.mget_mem _ _ _ hg
      have hsub : ((sti.fileIndex.filter
          (fun e => e.2.isValid && decide (e.2.retryCount < Imp.maxRetries))).map
            Prod.fst).Sublist (sti.fileIndex.map Prod.fst) :=
        (List.filter_sublist sti.fileIndex).map Prod.fst
      have hnd2 := hnd.sublist hsub
      apply JsMap.mget_eq_some_of_mem_nodup _ _ _ hnd2
      rw [List.mem_filter]
      exact ⟨hmem, by simp [hv, hr]⟩
  · rw [Imp.validateStoredFiles, Imp.quotaUpdateUsedGB,
      Imp.quotaUpdateKeepsIndex]
  · unfold Ult.validateAllFiles
    rw [Ult.validate_fold_no_tiers stu hdb hls]
    cases hmem : JsMap.mget stu.fileIndex k with
    | none => exact JsMap.mget_foldl_mdel_none _ _ _ hmem
    | some md =>
      apply JsMap.mget_foldl_mdel_of_mem
      simp only [List.nil_append]
      apply List.mem_map.mpr
      refine ⟨(k, md), ?_, rfl⟩
      rw [List.mem_filter]
      refine ⟨JsMap.mget_mem _ _ _ hmem, ?_⟩
      simp [JsMap.mhas, hnodata]
  · rfl

/-- Witness for C6's amended theorem: a two-record improved-service index
(one valid fresh record, one with `retryCount = 3`) and a one-record
ultimate-service state whose blob is in no tier. -/
theorem validation_sweep_behavior_witness :
    (JsMap.mget (Imp.validateStoredFiles
        ⟨[(['a'], ⟨"i1", "n1", 1, ['a'], 0, false, "L", "t", ['c'], ["L"], 0, true, 0⟩),
          (['b'], ⟨"i2", "n2", 1, ['b'], 0, false, "L", "t", ['c'], ["L"], 0, true, 3⟩)],
         ⟨1, 0, 1, 1⟩⟩).fileIndex ['b']
        = some ⟨"i2", "n2", 1, ['b'], 0, false, "L", "t", ['c'], ["L"], 0, true, 3⟩ ↔
      (JsMap.mget
        ([(['a'], ⟨"i1", "n1", 1, ['a'], 0, false, "L", "t", ['c'], ["L"], 0, true, 0⟩),
          (['b'], ⟨"i2", "n2", 1, ['b'], 0, false, "L", "t", ['c'], ["L"], 0, true, 3⟩)] :
            List (List Char × Ult.FileMetadata)) ['b']
          = some ⟨"i2", "n2", 1, ['b'], 0, false, "L", "t", ['c'], ["L"], 0, true, 3⟩ ∧
       (⟨"i2", "n2", 1, ['b'], 0, false, "L", "t", ['c'], ["L"], 0, true, 3⟩ :
          Ult.FileMetadata).isValid = true ∧
       (⟨"i2", "n2", 1, ['b'], 0, false, "L", "t", ['c'], ["L"], 0, true, 3⟩ :
          Ult.FileMetadata).retryCount < Imp.maxRetries)) ∧
    ((Imp.validateStoredFiles
        ⟨[(['a'], ⟨"i1", "n1", 1, ['a'], 0, false, "L", "t", ['c'], ["L"], 0, true, 0⟩),
          (['b'], ⟨"i2", "n2", 1, ['b'], 0, false, "L", "t", ['c'], ["L"], 0, true, 3⟩)],
         ⟨1, 0, 1, 1⟩⟩).quota.usedGB
      = ((JsMap.mvalues (Imp.validateStoredFiles
          ⟨[(['a'], ⟨"i1", "n1", 1, ['a'], 0, false, "L", "t", ['c'], ["L"], 0, true, 0⟩),
            (['b'], ⟨"i2", "n2", 1, ['b'], 0, false, "L", "t", ['c'], ["L"], 0, true, 3⟩)],
           ⟨1, 0, 1, 1⟩⟩).fileIndex).map (fun x => (x.size : ℚ))).sum / 2 ^ 30) ∧
    JsMap.mget (Ult.validateAllFiles
        ⟨[(['b'], ⟨"i2", "n2", 1, ['b'], 0, false, "L", "t", ['c'], ["L"], 0, true, 3⟩)],
         [], none, [], [], false, ⟨1, 5, 0, 1⟩⟩).fileIndex ['b'] = none ∧
    (Ult.validateAllFiles
        ⟨[(['b'], ⟨"i2", "n2", 1, ['b'], 0, false, "L", "t", ['c'], ["L"], 0, true, 3⟩)],
         [], none, [], [], false, ⟨1, 5, 0, 1⟩⟩).quota
      = (⟨[(['b'], ⟨"i2", "n2", 1, ['b'], 0, false, "L", "t", ['c'], ["L"], 0, true, 3⟩)],
          [], none, [], [], false, ⟨1, 5, 0, 1⟩⟩ : Ult.State).quota :=
  validation_sweep_behavior
    ⟨[(['a'], ⟨"i1", "n1", 1, ['a'], 0, false, "L", "t", ['c'], ["L"], 0, true, 0⟩),
      (['b'], ⟨"i2", "n2", 1, ['b'], 0, false, "L", "t", ['c'], ["L"], 0, true, 3⟩)],
     ⟨1, 0, 1, 1⟩⟩ ['b']
    ⟨"i2", "n2", 1, ['b'], 0, false, "L", "t", ['c'], ["L"], 0, true, 3⟩
    (by decide)
    ⟨[(['b'], ⟨"i2", "n2", 1, ['b'], 0, false, "L", "t", ['c'], ["L"], 0, true, 3⟩)],
     [], none, [], [], false, ⟨1, 5, 0, 1⟩⟩ rfl rfl rfl

/-- Counterexample to C6 as stated: a record with `retryCount = 0` whose
blob is absent from every tier is evicted by ultimateStorageService's very
first sweep (no retry is granted, no `retryCount` is incremented), and the
quota keeps its stale `usedGB = 5` instead of being recomputed to 0. -/
theorem validateAllFiles_evicts_fresh_record :
    (⟨"i", "n", 1, ['a'], 0, false, "L", "t", ['c'], ["L"], 0, true, 0⟩ :
        Ult.FileMetadata).retryCount = 0 ∧
    (Ult.validateAllFiles
        ⟨[(['a'], ⟨"i", "n", 1, ['a'], 0, false, "L", "t", ['c'], ["L"], 0, true, 0⟩)],
         [], none, [], [], false, ⟨1, 5, 0, 1⟩⟩).fileIndex = [] ∧
    (Ult.validateAllFiles
        ⟨[(['a'], ⟨"i", "n", 1, ['a'], 0, false, "L", "t", ['c'], ["L"], 0, true, 0⟩)],
         [], none, [], [], false, ⟨1, 5, 0, 1⟩⟩).quota.usedGB = 5 :=
  ⟨rfl, rfl, rfl⟩

/-! ## Claims C1 and C2: encrypted round trip and wrong-passphrase decrypt -/

/-- Claim C1, evaluated at its failing input: the unencrypted round trip
through ultimateStorageService is bit-identical (ingesting the byte `0x41`
and retrieving it returns exactly `[0x41]`), but the encrypted round trip
through part_003 is NOT — ingesting `[0x41]` under passphrase `"pw"` and
retrieving with the same passphrase returns the 16-byte PKCS#7-padded
block (the code converts every word of the crypto-js decrypt result and
never truncates to `sigBytes`), which differs from the original plaintext. -/
theorem roundtrip_padding_bug :
    (Ult.getFile
        (Ult.addFile ⟨"u", 0, "L", fun s => s⟩
          ⟨[], [], none, [], [], false, ⟨1, 0, 1, 1⟩⟩
          (some ⟨"a", "t", [65]⟩) false "A").1
        (Hex.calculateHash [65])).2
      = Except.ok (some ⟨"a", "t", [65]⟩) ∧
    PartThree.getFile PartThree.xorCipher
        (PartThree.addFile PartThree.xorCipher ⟨"u", 0, "L", fun s => s⟩
          ⟨some ⟨[], []⟩, [], ⟨1, 0, 1, 1⟩⟩ ⟨"a", "t", [65]⟩ false "A"
          (some "pw")).1
        (Hex.calculateHash (PartThree.cryptoJSEncrypt PartThree.xorCipher "pw" [65]))
        (some "pw")
      = Except.ok (some ⟨"a", "t", PartThree.pkcs7pad [65]⟩) ∧
    PartThree.pkcs7pad [65] ≠ [65] := by
  exact ⟨rfl, rfl, by decide⟩

/-- Claim C2, evaluated at its failing input: retrieving the file that was
ingested under passphrase `"pw"` while supplying the wrong passphrase
`"wrong"` does NOT surface a decryption error — crypto-js's decrypt is
total (it returns garbage words instead of throwing), so part_003's
`getFile` resolves successfully with corrupt bytes that differ from the
original plaintext `[0x41]`. -/
theorem wrong_passphrase_silent_corruption :
    PartThree.getFile PartThree.xorCipher
        (PartThree.addFile PartThree.xorCipher ⟨"u", 0, "L", fun s => s⟩
          ⟨some ⟨[], []⟩, [], ⟨1, 0, 1, 1⟩⟩ ⟨"a", "t", [65]⟩ false "A"
          (some "pw")).1
        (Hex.calculateHash (PartThree.cryptoJSEncrypt PartThree.xorCipher "pw" [65]))
        (some "wrong")
      = Except.ok (some ⟨"a", "t",
          PartThree.xorCipher.dec "wrong"
            (PartThree.cryptoJSEncrypt PartThree.xorCipher "pw" [65])⟩) ∧
    PartThree.xorCipher.dec "wrong"
        (PartThree.cryptoJSEncrypt PartThree.xorCipher "pw" [65]) ≠ [65] := by
  exact ⟨rfl, by decide⟩

/-! ## Claim C8: peer heartbeat -/

/-- Claim C8: a registered peer whose `lastSeen` is more than 30 seconds
old when a heartbeat tick (the check `startHeartbeat` runs every 10
seconds) fires is marked offline; the check never removes a peer from the
peer map (every key stays present); and a later `markPeerOnline` restores
the peer to online with a fresh `lastSeen`. -/
theorem heartbeat_marks_offline_and_recovers (now now2 : Nat)
    (peers : List (String × Net.PeerNode)) (pid : String) (p : Net.PeerNode)
    (hp : JsMap.mget peers pid = some p)
    (hstale : p.lastSeen + Net.offlineThresholdMs < now) :
    JsMap.mget (Net.heartbeatCheck now peers) pid
      = some { p with isOnline := false } ∧
    (∀ q : String, (JsMap.mget (Net.heartbeatCheck now peers) q).isSome
      = (JsMap.mget peers q).isSome) ∧
    JsMap.mget (Net.markPeerOnline now2 (Net.heartbeatCheck now peers) pid) pid
      = some { p with isOnline := true, lastSeen := now2 } := by
  have hmap : ∀ q : String, JsMap.mget (Net.heartbeatCheck now peers) q
      = (JsMap.mget peers q).map (Net.heartbeatOne now) :=
    fun q => JsMap.mget_map_kv peers (Net.heartbeatOne now) q
  have hcond : Net.offlineThresholdMs < now - p.lastSeen := by
    unfold Net.offlineThresholdMs at hstale ⊢
    omega
  have hbo : Net.heartbeatOne now p = { p with isOnline := false } := by
    unfold Net.heartbeatOne
    rw [if_pos hcond]
    by_cases hop : p.isOnline = true
    · rw [if_pos hop]
    · rw [if_neg hop]
      cases p
      simp_all
  have h1 : JsMap.mget (Net.heartbeatCheck now peers) pid
      = some { p with isOnline := false } := by
    rw [hmap, hp]
    exact congrArg some hbo
  refine ⟨h1, ?_, ?_⟩
  · intro q
    rw [hmap q]
    cases JsMap.mget peers q <;> rfl
  · unfold Net.markPeerOnline
    rw [h1]
    rw [JsMap.mget_mset_self]

/-- Witness for C8: one registered peer last seen at time 0, checked at
time 40000 ms (more than 30 s later), then marked online at time 50000. -/
theorem heartbeat_marks_offline_and_recovers_witness :
    JsMap.mget (Net.heartbeatCheck 40000
        [("p1", ⟨"p1", "localhost", 5000, 0, 0, 0, true⟩)]) "p1"
      = some ⟨"p1", "localhost", 5000, 0, 0, 0, false⟩ ∧
    (∀ q : String, (JsMap.mget (Net.heartbeatCheck 40000
        [("p1", ⟨"p1", "localhost", 5000, 0, 0, 0, true⟩)]) q).isSome
      = (JsMap.mget [("p1", (⟨"p1", "localhost", 5000, 0, 0, 0, true⟩ : Net.PeerNode))] q).isSome) ∧
    JsMap.mget (Net.markPeerOnline 50000
        (Net.heartbeatCheck 40000
          [("p1", ⟨"p1", "localhost", 5000, 0, 0, 0, true⟩)]) "p1") "p1"
      = some ⟨"p1", "localhost", 5000, 50000, 0, 0, true⟩ :=
  heartbeat_marks_offline_and_recovers 40000 50000
    [("p1", ⟨"p1", "localhost", 5000, 0, 0, 0, true⟩)] "p1"
    ⟨"p1", "localhost", 5000, 0, 0, 0, true⟩ rfl (by decide)

